import Mathlib

/-!
Verification development for the digital photo album program (src/album.c,
src/demo.c).  The C program processes a batch of images concurrently: each
image gets its own forked worker running `process_img`, report writes to
"index.html" are serialized by a token-passing discipline over a shared pipe
(`ptp2`), display order is gated by a second shared pipe (`ptp1`), and the
top-level `process` loop caps the number of simultaneously live workers at
`max_conversions = 3`.

The development has two layers:

* pure functional models of the sequential pieces (`header_is_img`,
  `invalid_img`, `validate`, `main`'s outcome, the rotation-answer decoding
  in `ask_user`, `img_html` / `cap_html`, and the artifact naming done in
  `process`);

* small-step interleaving models of the concurrent pieces: `Sys`/`Step` for
  the per-image workers of `process_img` (with the two shared pipes as FIFO
  queues and the forked `img_html` writer as an asynchronous task), and
  `Sched`/`SStep` for the admission-control loop of `process`.

The worker model covers error-free executions: the `exit(-1)` branches taken
when a pipe read/write fails are modelled separately by `coord_fail_behavior`.
Machine integers are modelled as `Nat`/`Int`; no value in the program
approaches an overflow boundary (indices, pipe payloads, exit codes).
-/

/-- Pointwise update of a function `Nat → α` at one index; used to model a
single worker's field changing inside the global state. -/
def upd {α : Type} (f : Nat → α) (k : Nat) (x : α) : Nat → α :=
  fun j => if j = k then x else f j

/-! ### Image-header recognition and argument validation (album.c lines 27-88) -/

/-- `header_is_img` (album.c lines 27-38): checks the first bytes of a file
header against the jpg / png / bmp / gif magic signatures.  The C function
receives an array of exactly 8 bytes (every caller passes the buffer filled
by `fread(bytes, 8, 1, fp)`); lists shorter than 8 never occur and are
mapped to `false`. -/
def header_is_img (bytes : List Nat) : Bool :=
  match bytes with
  | b0 :: b1 :: b2 :: b3 :: b4 :: b5 :: b6 :: b7 :: _ =>
    ((b0 == 0xff) && (b1 == 0xd8)) ||
    ((b0 == 0x89) && (b1 == 0x50) && (b2 == 0x4e) && (b3 == 0x47) &&
     (b4 == 0x0d) && (b5 == 0x0a) && (b6 == 0x1a) && (b7 == 0x0a)) ||
    ((b0 == 0x42) && (b1 == 0x4d)) ||
    ((b0 == 0x47) && (b1 == 0x49) && (b2 == 0x46))
  | _ => false

/-- `invalid_img` (album.c lines 45-60).  A file is modelled as
`Option (List Nat)`: `none` when `fopen` fails, `some bytes` for a readable
file with the given contents, of which `fread` takes the first 8 bytes
(files are assumed to be at least 8 bytes long, as `fread`'s result is not
checked in the C).  Returns `-1` if invalid, `0` if valid, as the C does. -/
def invalid_img (file : Option (List Nat)) : Int :=
  match file with
  | none => -1
  | some bytes => if header_is_img (bytes.take 8) then 0 else -1

/-- The argument-checking loop of `validate` (album.c lines 80-85): returns
`-1` at the first image argument that fails `invalid_img`, else `0`.
`fs` is the file system, mapping a path to its readable contents. -/
def validate_loop (fs : String → Option (List Nat)) : List String → Int
  | [] => 0
  | a :: rest => if invalid_img (fs a) ≠ 0 then -1 else validate_loop fs rest

/-- `validate` (album.c lines 70-88): `args` is the list of image arguments
(`argv[1..]`); `argc <= 1` means this list is empty. -/
def validate (fs : String → Option (List Nat)) (args : List String) : Int :=
  if args.length = 0 then -1 else validate_loop fs args

/-- Outcome of `process` (album.c lines 615-675) abstracted to the pair
(exit status, number of workers forked).  `ok1`/`ok2` tell whether the two
`pipe()` calls at line 626 succeed; on failure `process` returns `-1` before
its fork loop runs, so zero workers are spawned. -/
def process_result (ok1 ok2 : Bool) (nimgs : Nat) : Int × Nat :=
  if ok1 && ok2 then (0, nimgs) else (-1, 0)

/-- `main` (album.c lines 685-690) abstracted to (exit status, number of
workers forked): if `validate` fails, main returns `-1` without calling
`process`, hence zero spawns. -/
def album_main (fs : String → Option (List Nat)) (ok1 ok2 : Bool)
    (args : List String) : Int × Nat :=
  if validate fs args ≠ 0 then (-1, 0) else process_result ok1 ok2 args.length

/-! ### Rotation decision (album.c lines 264-298 and 540-550) -/

/-- Decoding of the user's rotation answer in the parent branch of `ask_user`
(album.c lines 264-297): `strcmp(readbuf, "1") == 0` gives 1 (clockwise),
`"2"` gives 2 (counter-clockwise), anything else leaves the default 0. -/
def rot_dir_of_response (readbuf : String) : Nat :=
  if readbuf = "1" then 1 else if readbuf = "2" then 2 else 0

/-- The `-rotate` argument chosen inside `rotate` (album.c lines 171-178):
1 is 90 degrees clockwise, 2 is -90, anything else the "0" failsafe. -/
def rotate_direction (rot_dir : Nat) : String :=
  if rot_dir = 1 then "90" else if rot_dir = 2 then "-90" else "0"

/-- The rotate invocations performed by `process_img` (album.c lines
540-550): when `rot_dir > 0`, `rotate` is forked once for the thumbnail and
once for the medium image; otherwise no rotate is invoked.  Each entry is
(artifact, magick rotation argument). -/
def rotations_performed (rot_dir : Nat) (thumb med : String) :
    List (String × String) :=
  if rot_dir > 0 then
    [(thumb, rotate_direction rot_dir), (med, rotate_direction rot_dir)]
  else []

/-! ### Report-sink writes (album.c lines 351-393) -/

/-- The link-block text `img_html` prints (album.c line 367). -/
def link_entry (thumb_name med_name : String) : String :=
  "<a href=\"" ++ med_name ++ "\"><img src=\"" ++ thumb_name ++ "\"></a>"

/-- The caption-block text `cap_html` prints (album.c line 389). -/
def cap_entry (caption : String) : String :=
  "<h2>" ++ caption ++ "</h2>"

/-- `img_html` (album.c lines 351-371) as a transformer of the sink's
contents: image 1 opens "index.html" with mode "w" (truncating whatever was
there), every other image opens it with "a" and appends. -/
def img_html (thumb_name med_name : String) (order : Nat) (html : String) :
    String :=
  if order = 1 then link_entry thumb_name med_name
  else html ++ link_entry thumb_name med_name

/-- `cap_html` (album.c lines 378-393): always opens the sink with "a". -/
def cap_html (caption : String) (html : String) : String :=
  html ++ cap_entry caption

/-! ### Artifact naming and the order of actions inside one worker
(album.c lines 413-587 and 641-658) -/

/-- The basename computation in `process` (album.c lines 641-644):
`strrchr(path, '/')` takes everything after the last '/', or the whole
string when there is none.  Implemented by a left fold that restarts the
accumulator at each '/', which yields exactly the suffix after the last
'/' (the whole string when no '/' occurs, the empty string after a
trailing '/'), matching the C pointer arithmetic. -/
def img_basename (path : String) : String :=
  String.mk (path.toList.foldl (fun acc c => if c = '/' then [] else acc ++ [c]) [])

/-- `thumb_name` built in `process` (album.c lines 647-652). -/
def thumb_name (path : String) : String :=
  "thumb_" ++ img_basename path

/-- `med_name` built in `process` (album.c lines 648-653). -/
def med_name (path : String) : String :=
  "med_" ++ img_basename path

/-- The externally relevant actions of `process_img`, in program order. -/
inductive PAction where
  | resizeReq (src target size : String)
  | tokenPoll
  | forkLink
  | waitResize
  | gatePoll
  | displayImg
  | waitDisplay
  | askRotate
  | maybeRotate
  | askCap
  | capWrite
  | tokenHandoff
  | gateNotify
deriving DecidableEq

/-- Which actions can block (pipe reads, `waitpid`, user interaction). -/
def isWaitAction : PAction → Bool
  | .tokenPoll => true
  | .waitResize => true
  | .gatePoll => true
  | .waitDisplay => true
  | .askRotate => true
  | .askCap => true
  | _ => false

/-- The sequence of actions `process_img` performs for the image with
1-based sequence index `index` and input path `path` (album.c lines
413-587): both resizes are forked first (lines 431-437, sizes "10%" and
"25%"), then the token-ring poll for images other than the first (444-473),
the fork of the `img_html` writer (482-483), the wait for the thumbnail
resize (491), the display gate for images other than the first (499-508),
display (516-524), the two-question interactive session with the optional
rotation in between (535-557), the caption write (560), and the two hand-off
writes (570, 579). -/
def process_img_script (index : Nat) (path : String) : List PAction :=
  .resizeReq path (thumb_name path) "10%" ::
  .resizeReq path (med_name path) "25%" ::
  ((if index = 1 then [] else [.tokenPoll]) ++
   [.forkLink, .waitResize] ++
   (if index = 1 then [] else [.gatePoll]) ++
   [.displayImg, .waitDisplay, .askRotate, .maybeRotate, .askCap,
    .capWrite, .tokenHandoff, .gateNotify])

/-! ### Failure policy on the coordination pipes (album.c lines 444-473,
499-508, 566-582, 626-629) -/

/-- The five coordination-pipe operations a worker performs. -/
inductive CoordOp where
  | tokenRecv        -- read(html_in)  at line 450
  | tokenResendSend  -- write(html_out) at line 461
  | gateRecv         -- read(from_prev) at line 503
  | tokenHandoffSend -- write(html_out) at line 570
  | gateSendNext     -- write(to_next)  at line 579
deriving DecidableEq

/-- What a worker does when one of these operations fails. -/
inductive FailBehavior where
  | exitWorker (status : Int)
  | warnContinue
deriving DecidableEq

/-- Failure behavior per operation, read off album.c: the token-ring read
(line 450-453), token re-send (461-464), token hand-off (570-573) and gate
send (579-582) all `exit(-1)`; the gate receive (503-504) only prints a
warning and keeps going ("keep going anyway, read data irrelavent"). -/
def coord_fail_behavior : CoordOp → FailBehavior
  | .gateRecv => .warnContinue
  | _ => .exitWorker (-1)

/-- The status a worker exits with on success (album.c line 663). -/
def worker_success_status : Int := 0

/-! ### Interleaving model of the per-image workers

One worker per image, sequence indices 1..N.  The two shared pipes are FIFO
queues of the integers actually written: `htmlQ` is `ptp2` (token ring for
report writes), `gateQ` is `ptp1` (display gate; readers ignore the value).
The forked `img_html` child of each worker is an asynchronous task that can
run at any time after its fork.  The report is the ordered list of blocks
written to "index.html"; `img_html` for image 1 truncates the sink.

Program counter of a worker, following `process_img`:
0 fork thumb resize, 1 fork med resize, 2 token-ring poll (image 1 skips),
3 fork the `img_html` child, 4 waitpid on the thumb resize, 5 gate read
(image 1 skips), 6 fork display, 7 wait for display + both interactive
questions + optional rotation, 8 caption write, 9 token hand-off write,
10 gate write, 11 done.  The C token loop does `read` and then a conditional
`write`-back as two system calls; correspondingly pc 2 has two phases,
recorded in `held`: `none` before the read, `some v` after reading `v` and
before deciding. -/

/-- One block of the report: the `img_html` output or the `cap_html` output
of the image with the given sequence index. -/
inductive Block where
  | link (i : Nat)
  | cap (i : Nat)
deriving DecidableEq

/-- Status of a worker's forked `img_html` child. -/
inductive TaskSt where
  | notForked
  | pending
  | written
deriving DecidableEq

/-- Local state of one worker. -/
structure WState where
  pc : Nat
  held : Option Nat
deriving DecidableEq

/-- Global state: worker states (indices 1..N are meaningful), the two
pipes, the `img_html` child tasks, and the report sink. -/
structure Sys where
  w : Nat → WState
  htmlQ : List Nat
  gateQ : List Nat
  task : Nat → TaskSt
  report : List Block

/-- Initial state: every worker at its start, empty pipes, empty sink. -/
def sysInit : Sys :=
  { w := fun _ => ⟨0, none⟩
    htmlQ := []
    gateQ := []
    task := fun _ => .notForked
    report := [] }

/-- One interleaving step of the batch with `N` images (error-free
executions of album.c lines 413-587).  Sleep/yield calls are no-ops. -/
inductive Step (N : Nat) : Sys → Sys → Prop where
  | resizeThumb (s : Sys) (i : Nat) (h1 : 1 ≤ i) (hN : i ≤ N)
      (hpc : (s.w i).pc = 0) :
      Step N s { s with w := upd s.w i ⟨1, none⟩ }
  | resizeMed (s : Sys) (i : Nat) (h1 : 1 ≤ i) (hN : i ≤ N)
      (hpc : (s.w i).pc = 1) :
      Step N s { s with w := upd s.w i ⟨2, none⟩ }
  | tokenSkip (s : Sys) (hN : 1 ≤ N) (hpc : (s.w 1).pc = 2) :
      Step N s { s with w := upd s.w 1 ⟨3, none⟩ }
  | tokenRead (s : Sys) (i v : Nat) (rest : List Nat) (h2 : 2 ≤ i)
      (hN : i ≤ N) (hpc : (s.w i).pc = 2) (hh : (s.w i).held = none)
      (hq : s.htmlQ = v :: rest) :
      Step N s { s with w := upd s.w i ⟨2, some v⟩, htmlQ := rest }
  | tokenResend (s : Sys) (i v : Nat) (h2 : 2 ≤ i) (hN : i ≤ N)
      (hpc : (s.w i).pc = 2) (hh : (s.w i).held = some v) (hne : v ≠ i) :
      Step N s { s with w := upd s.w i ⟨2, none⟩, htmlQ := s.htmlQ ++ [v] }
  | tokenPass (s : Sys) (i : Nat) (h2 : 2 ≤ i) (hN : i ≤ N)
      (hpc : (s.w i).pc = 2) (hh : (s.w i).held = some i) :
      Step N s { s with w := upd s.w i ⟨3, none⟩ }
  | forkLink (s : Sys) (i : Nat) (h1 : 1 ≤ i) (hN : i ≤ N)
      (hpc : (s.w i).pc = 3) :
      Step N s { s with w := upd s.w i ⟨4, none⟩, task := upd s.task i .pending }
  | waitResize (s : Sys) (i : Nat) (h1 : 1 ≤ i) (hN : i ≤ N)
      (hpc : (s.w i).pc = 4) :
      Step N s { s with w := upd s.w i ⟨5, none⟩ }
  | gateSkip (s : Sys) (hN : 1 ≤ N) (hpc : (s.w 1).pc = 5) :
      Step N s { s with w := upd s.w 1 ⟨6, none⟩ }
  | gateRead (s : Sys) (i v : Nat) (rest : List Nat) (h2 : 2 ≤ i)
      (hN : i ≤ N) (hpc : (s.w i).pc = 5) (hg : s.gateQ = v :: rest) :
      Step N s { s with w := upd s.w i ⟨6, none⟩, gateQ := rest }
  | beginDisplay (s : Sys) (i : Nat) (h1 : 1 ≤ i) (hN : i ≤ N)
      (hpc : (s.w i).pc = 6) :
      Step N s { s with w := upd s.w i ⟨7, none⟩ }
  | interact (s : Sys) (i : Nat) (h1 : 1 ≤ i) (hN : i ≤ N)
      (hpc : (s.w i).pc = 7) :
      Step N s { s with w := upd s.w i ⟨8, none⟩ }
  | writeCaption (s : Sys) (i : Nat) (h1 : 1 ≤ i) (hN : i ≤ N)
      (hpc : (s.w i).pc = 8) :
      Step N s { s with w := upd s.w i ⟨9, none⟩,
                        report := s.report ++ [Block.cap i] }
  | tokenHandoff (s : Sys) (i : Nat) (h1 : 1 ≤ i) (hN : i ≤ N)
      (hpc : (s.w i).pc = 9) :
      Step N s { s with w := upd s.w i ⟨10, none⟩,
                        htmlQ := s.htmlQ ++ [i + 1] }
  | gateNotify (s : Sys) (i : Nat) (h1 : 1 ≤ i) (hN : i ≤ N)
      (hpc : (s.w i).pc = 10) :
      Step N s { s with w := upd s.w i ⟨11, none⟩,
                        gateQ := s.gateQ ++ [i + 1] }
  | linkWrite (s : Sys) (i : Nat) (h1 : 1 ≤ i) (hN : i ≤ N)
      (ht : s.task i = .pending) :
      Step N s { s with task := upd s.task i .written,
                        report := if i = 1 then [Block.link i]
                                  else s.report ++ [Block.link i] }

/-- Reachability from the initial state. -/
inductive Reach (N : Nat) : Sys → Prop where
  | init : Reach N sysInit
  | step {s s' : Sys} : Reach N s → Step N s s' → Reach N s'

/-! ### The inductive invariant of the worker system -/

/-- Threshold characterization: among workers `lo..N`, those whose pc has
reached `t` are exactly `lo..bnd`. -/
def chThr (N : Nat) (w : Nat → WState) (lo t bnd : Nat) : Prop :=
  ∀ i, lo ≤ i → i ≤ N → (t ≤ (w i).pc ↔ i ≤ bnd)

/-- No worker is holding a token it has read but not yet decided on. -/
def heldNone (w : Nat → WState) : Prop :=
  ∀ i, (w i).held = none

/-- Contents of the token pipe plus any in-hand token, as a function of how
many workers have passed the poll (`p`) and how many have handed off (`m`):
the single circulating token `m+1` is either in the pipe, or in the hand of
one polling worker, or consumed (when `p = m + 1`) or not yet created
(when `m = 0` covers the time before worker 1 hands off). -/
def QInv (N : Nat) (q : List Nat) (w : Nat → WState) (p m : Nat) : Prop :=
  (q = [] ∧ heldNone w ∧ (p = m + 1 ∨ m = 0))
  ∨ (q = [m + 1] ∧ heldNone w ∧ p = m ∧ 1 ≤ m)
  ∨ (q = [] ∧ p = m ∧ 1 ≤ m ∧
      ∃ k, 2 ≤ k ∧ k ≤ N ∧ (w k).pc = 2 ∧ (w k).held = some (m + 1) ∧
        ∀ j, j ≠ k → (w j).held = none)

/-- The inductive invariant: `p` workers have passed the token poll, `m`
have handed the token off, `mg` have sent their gate signal, and `d - 1`
workers among 2..N have consumed a gate signal (all four sets are prefixes
of 1..N resp. 2..N). -/
structure InvAt (N : Nat) (s : Sys) (p m mg d : Nat) : Prop where
  hm : m ≤ p
  hp : p ≤ N
  hpm : p ≤ m + 1
  hmg : mg ≤ m
  hd : 1 ≤ d
  c3 : chThr N s.w 1 3 p
  c10 : chThr N s.w 1 10 m
  c11 : chThr N s.w 1 11 mg
  c6 : chThr N s.w 2 6 d
  hglen : mg + 1 = s.gateQ.length + d
  hq : QInv N s.htmlQ s.w p m

/-- The invariant, with the four counters existentially packaged. -/
def SysInv (N : Nat) (s : Sys) : Prop :=
  ∃ p m mg d, InvAt N s p m mg d

/-! ### Statement bundles for the token-ring and gating claims -/

/-- Properties of the token-ring discipline (album.c lines 444-473 and
566-573) at a state `s` of the batch of `N` images.
1. Worker 1 is never mid-poll (it never reads the token pipe).
2. Worker 1 passes its (skipped) poll unconditionally, touching no pipe.
3. A polling worker holding `v ≠ i` re-emits exactly `v` and stays at its
   poll; holding `v = i` it stops polling and proceeds, emitting nothing.
4. The hand-off step of worker `i` emits exactly `i + 1`, and is reached
   only after the caption-write step (pc 9 follows pc 8).
5. Any value consumed from the token pipe is at most `N`: the final
   hand-off value `N + 1` is never consumed. -/
def C2Prop (N : Nat) (s : Sys) : Prop :=
  ((s.w 1).held = none)
  ∧ ((s.w 1).pc = 2 → 1 ≤ N → Step N s { s with w := upd s.w 1 ⟨3, none⟩ })
  ∧ (∀ s' i v, Step N s s' → 1 ≤ i → i ≤ N → (s.w i).held = some v →
      s'.w i ≠ s.w i →
      (v ≠ i → s'.w i = ⟨2, none⟩ ∧ s'.htmlQ = s.htmlQ ++ [v] ∧
        s'.gateQ = s.gateQ ∧ s'.report = s.report)
      ∧ (v = i → s'.w i = ⟨3, none⟩ ∧ s'.htmlQ = s.htmlQ ∧
        s'.report = s.report))
  ∧ (∀ s' i, Step N s s' → 1 ≤ i → i ≤ N → (s.w i).pc = 9 →
      s'.w i ≠ s.w i → s'.htmlQ = s.htmlQ ++ [i + 1] ∧ (s'.w i).pc = 10
        ∧ 9 ≤ (s.w i).pc)
  ∧ (∀ s' v rest, Step N s s' → s.htmlQ = v :: rest → s'.htmlQ = rest →
      v ≤ N)

/-- Properties of the display gate (album.c lines 499-508 and 579-582) at a
state `s` of the batch of `N` images.
1. If worker `k` (k ≥ 2) has begun its display step (pc ≥ 7), worker `k-1`
   has already sent its gate signal (pc ≥ 11), and in particular has
   already performed its caption write (pc ≥ 9).
2. Worker 1 never waits at the gate: from pc 5 it can always advance, and
   its advancing step does not touch the gate pipe. -/
def C3Prop (N : Nat) (s : Sys) : Prop :=
  (∀ k, 2 ≤ k → k ≤ N → 7 ≤ (s.w k).pc →
      11 ≤ (s.w (k - 1)).pc ∧ 9 ≤ (s.w (k - 1)).pc)
  ∧ ((s.w 1).pc = 5 → 1 ≤ N → Step N s { s with w := upd s.w 1 ⟨6, none⟩ })

/-! ### Admission-control model of `process` (album.c lines 596-604, 631-665)

The scheduler forks workers in argument order; before each fork it polls
`concurrent` and sleeps while the count of live children is at least
`max_conversions`.  Workers die at arbitrary times (the `finish` step).
Slots at or past the spawn frontier hold no live child (in the C, `waitpid`
on such a pid slot does not report a running child), so `concurrent` counts
the spawned-and-not-yet-dead workers. -/

/-- The concurrency cap (album.c line 632, "change this number to your
liking"). -/
def max_conversions : Nat := 3

/-- Scheduler state: how many workers have been forked, which of them have
died, and the order in which indices were forked. -/
structure Sched where
  spawned : Nat
  dead : Nat → Bool
  order : List Nat

/-- `concurrent` (album.c lines 596-604): the number of forked workers that
are still alive. -/
def concurrent (st : Sched) : Nat :=
  (List.range st.spawned).countP (fun j => ! st.dead j)

/-- Initial scheduler state. -/
def schedInit : Sched :=
  { spawned := 0, dead := fun _ => false, order := [] }

/-- Scheduler transitions: `spawn` is admitted only while `concurrent` is
below the cap (the polling loop at album.c lines 632-634 defers otherwise);
`finish` is a worker dying. -/
inductive SStep (N : Nat) : Sched → Sched → Prop where
  | spawn (st : Sched) (hlt : st.spawned < N)
      (hc : concurrent st < max_conversions) :
      SStep N st { spawned := st.spawned + 1, dead := st.dead,
                   order := st.order ++ [st.spawned] }
  | finish (st : Sched) (j : Nat) (hj : j < st.spawned)
      (hd : st.dead j = false) :
      SStep N st { spawned := st.spawned, dead := upd st.dead j true,
                   order := st.order }

/-- Scheduler reachability. -/
inductive SReach (N : Nat) : Sched → Prop where
  | init : SReach N schedInit
  | step {st st' : Sched} : SReach N st → SStep N st st' → SReach N st'

/-- Scheduler invariant: no dead marks past the frontier, the cap holds,
and spawns happened exactly in index order. -/
def SchedInv (st : Sched) : Prop :=
  (∀ j, st.spawned ≤ j → st.dead j = false)
  ∧ concurrent st ≤ max_conversions
  ∧ st.order = List.range st.spawned

/-- Bundle for the concurrency-cap claim: the cap holds, membership of the
pool changed only via the spawn/finish steps (enforced by `SStep` itself),
and the spawn order is exactly 0,1,2,... hence strictly increasing. -/
def C4Prop (st : Sched) : Prop :=
  concurrent st ≤ max_conversions
  ∧ st.order = List.range st.spawned
  ∧ List.Pairwise (· < ·) st.order

/-! ### A concrete adversarial schedule for a single-image batch

The forked `img_html` child of image 1 is delayed until after the parent's
caption write; the parent finishes completely first.  States `cs0`-`cs12`
are the successive states of this schedule for `N = 1`. -/

def cs0 : Sys := sysInit
def cs1 : Sys := { cs0 with w := upd cs0.w 1 ⟨1, none⟩ }
def cs2 : Sys := { cs1 with w := upd cs1.w 1 ⟨2, none⟩ }
def cs3 : Sys := { cs2 with w := upd cs2.w 1 ⟨3, none⟩ }
def cs4 : Sys := { cs3 with w := upd cs3.w 1 ⟨4, none⟩,
                            task := upd cs3.task 1 .pending }
def cs5 : Sys := { cs4 with w := upd cs4.w 1 ⟨5, none⟩ }
def cs6 : Sys := { cs5 with w := upd cs5.w 1 ⟨6, none⟩ }
def cs7 : Sys := { cs6 with w := upd cs6.w 1 ⟨7, none⟩ }
def cs8 : Sys := { cs7 with w := upd cs7.w 1 ⟨8, none⟩ }
def cs9 : Sys := { cs8 with w := upd cs8.w 1 ⟨9, none⟩,
                            report := cs8.report ++ [Block.cap 1] }
def cs10 : Sys := { cs9 with w := upd cs9.w 1 ⟨10, none⟩,
                             htmlQ := cs9.htmlQ ++ [2] }
def cs11 : Sys := { cs10 with w := upd cs10.w 1 ⟨11, none⟩,
                              gateQ := cs10.gateQ ++ [2] }
def cs12 : Sys := { cs11 with task := upd cs11.task 1 .written,
                              report := [Block.link 1] }

/-- A short scheduler run for `N = 10`: two spawns. -/
def ss1 : Sched := { spawned := 1, dead := schedInit.dead,
                     order := schedInit.order ++ [0] }
def ss2 : Sched := { spawned := 2, dead := ss1.dead,
                     order := ss1.order ++ [1] }

/-! ## Basic lemmas about `upd` -/

theorem upd_self {α : Type} (f : Nat → α) (k : Nat) (x : α) : upd f k x k = x := by
  simp [upd]

theorem upd_ne {α : Type} (f : Nat → α) (k : Nat) (x : α) {j : Nat}
    (h : j ≠ k) : upd f k x j = f j := by
  simp [upd, h]

/-! ## Claim C7: header recognition -/

/-- Claim C7: `header_is_img` returns true on an 8-byte leading sequence
exactly when it begins with one of the known magic signatures (JPEG
0xFF 0xD8, the full 8-byte PNG signature, BMP 0x42 0x4D, GIF 0x47 0x49
0x46), and a file passes `invalid_img`'s validation exactly when it is
readable and its first 8 bytes satisfy the predicate. -/
theorem album_c7_header_recognition :
    (∀ b0 b1 b2 b3 b4 b5 b6 b7 : Nat,
      header_is_img [b0, b1, b2, b3, b4, b5, b6, b7] = true ↔
        ((b0 = 0xff ∧ b1 = 0xd8)
         ∨ (b0 = 0x89 ∧ b1 = 0x50 ∧ b2 = 0x4e ∧ b3 = 0x47 ∧ b4 = 0x0d ∧
            b5 = 0x0a ∧ b6 = 0x1a ∧ b7 = 0x0a)
         ∨ (b0 = 0x42 ∧ b1 = 0x4d)
         ∨ (b0 = 0x47 ∧ b1 = 0x49 ∧ b2 = 0x46)))
    ∧ invalid_img none = -1
    ∧ (∀ bytes, invalid_img (some bytes) = 0 ↔
        header_is_img (bytes.take 8) = true) := by
  refine ⟨?_, rfl, ?_⟩
  · intro b0 b1 b2 b3 b4 b5 b6 b7
    show (((b0 == 0xff) && (b1 == 0xd8)) ||
      ((b0 == 0x89) && (b1 == 0x50) && (b2 == 0x4e) && (b3 == 0x47) &&
       (b4 == 0x0d) && (b5 == 0x0a) && (b6 == 0x1a) && (b7 == 0x0a)) ||
      ((b0 == 0x42) && (b1 == 0x4d)) ||
      ((b0 == 0x47) && (b1 == 0x49) && (b2 == 0x46))) = true ↔ _
    simp only [Bool.or_eq_true, Bool.and_eq_true, beq_iff_eq]
    tauto
  · intro bytes
    by_cases h : header_is_img (bytes.take 8) = true
    · simp [invalid_img, h]
    · simp [invalid_img, h]

/-! ## Claim C6: argument validation aborts before any spawn -/

theorem validate_loop_neg (fs : String → Option (List Nat)) :
    ∀ (args : List String) (a : String), a ∈ args → invalid_img (fs a) ≠ 0 →
      validate_loop fs args = -1 := by
  intro args
  induction args with
  | nil => intro a ha; cases ha
  | cons b rest ih =>
    intro a ha hbad
    by_cases hb : invalid_img (fs b) ≠ 0
    · show (if invalid_img (fs b) ≠ 0 then (-1 : Int) else validate_loop fs rest) = -1
      rw [if_pos hb]
    · have hab : a ≠ b := by
        intro he; rw [he] at hbad; exact hb hbad
      have har : a ∈ rest := by
        rcases List.mem_cons.mp ha with h | h
        · exact absurd h hab
        · exact h
      show (if invalid_img (fs b) ≠ 0 then (-1 : Int) else validate_loop fs rest) = -1
      rw [if_neg hb]
      exact ih a har hbad

/-- Claim C6: with zero image arguments `main` emits the usage error and
returns nonzero without calling `process` (zero spawns); if any argument
fails the readability or image-format check, `main` returns nonzero with
zero worker spawns. -/
theorem album_c6_reject_before_spawn (fs : String → Option (List Nat))
    (ok1 ok2 : Bool) :
    (album_main fs ok1 ok2 [] = (-1, 0) ∧ ((-1 : Int) ≠ 0))
    ∧ (∀ args a, a ∈ args → invalid_img (fs a) ≠ 0 →
        album_main fs ok1 ok2 args = (-1, 0)) := by
  refine ⟨⟨rfl, by decide⟩, ?_⟩
  intro args a ha hbad
  have hlen : args.length ≠ 0 := by
    cases args with
    | nil => cases ha
    | cons b rest => simp
  have hv : validate fs args = -1 := by
    show (if args.length = 0 then (-1 : Int) else validate_loop fs args) = -1
    rw [if_neg hlen]
    exact validate_loop_neg fs args a ha hbad
  show (if validate fs args ≠ 0 then ((-1 : Int), (0 : Nat))
        else process_result ok1 ok2 args.length) = (-1, 0)
  rw [hv, if_pos (show (-1 : Int) ≠ 0 by decide)]

/-! ## Claim C5: rotation decision mapping -/

/-- Claim C5: response "1" decodes to the clockwise decision (magick
argument "90"), "2" to counter-clockwise ("-90"), anything else (including
the empty response) to no rotation; `process_img` invokes the rotate
transform on both derived artifacts exactly when the decision is nonzero,
and not at all otherwise. -/
theorem album_c5_rotation_mapping :
    rot_dir_of_response "1" = 1
    ∧ rot_dir_of_response "2" = 2
    ∧ (∀ r, r ≠ "1" → r ≠ "2" → rot_dir_of_response r = 0)
    ∧ rot_dir_of_response "" = 0
    ∧ rotate_direction 1 = "90"
    ∧ rotate_direction 2 = "-90"
    ∧ (∀ r t m, rot_dir_of_response r ≠ 0 →
        rotations_performed (rot_dir_of_response r) t m =
          [(t, rotate_direction (rot_dir_of_response r)),
           (m, rotate_direction (rot_dir_of_response r))])
    ∧ (∀ r t m, rot_dir_of_response r = 0 →
        rotations_performed (rot_dir_of_response r) t m = []) := by
  refine ⟨rfl, rfl, ?_, rfl, rfl, rfl, ?_, ?_⟩
  · intro r h1 h2
    show (if r = "1" then 1 else if r = "2" then 2 else 0) = 0
    rw [if_neg h1, if_neg h2]
  · intro r t m h
    show (if rot_dir_of_response r > 0 then _ else _) = _
    rw [if_pos (Nat.pos_of_ne_zero h)]
  · intro r t m h
    rw [h]
    rfl

/-! ## Claim C8 (functional part): sink open modes -/

/-- Claim C8 (amended): image 1's link write truncates the sink, every
other link write and every caption write appends; consequently, when the
link write of a single-image run is performed before its caption write (the
order the code intends), the run yields exactly one link block immediately
followed by one caption block, independent of any leftover sink content
from a previous run. -/
theorem album_c8_truncate_then_append :
    (∀ t m html, img_html t m 1 html = link_entry t m)
    ∧ (∀ t m o html, o ≠ 1 → img_html t m o html = html ++ link_entry t m)
    ∧ (∀ c html, cap_html c html = html ++ cap_entry c)
    ∧ (∀ t m c prev1 prev2,
        cap_html c (img_html t m 1 prev1) = cap_html c (img_html t m 1 prev2)
        ∧ cap_html c (img_html t m 1 prev1) = link_entry t m ++ cap_entry c) := by
  refine ⟨fun t m html => rfl, ?_, fun c html => rfl, ?_⟩
  · intro t m o html h
    show (if o = 1 then _ else _) = _
    rw [if_neg h]
  · intro t m c prev1 prev2
    exact ⟨rfl, rfl⟩

/-! ## Claim C9 (amended): failure policy on the coordination pipes -/

/-- Claim C9 (amended): a failed pipe creation in `process` aborts the
whole run with status -1 before any worker is forked; a failure of the
token-ring read, the token re-send, the token hand-off or the gate send
terminates just that worker with the distinguishable status -1 (≠ the
normal exit status 0); a failure of the gate receive is only warned about
and the worker continues. -/
theorem album_c9_failure_policy :
    (∀ op, op ≠ CoordOp.gateRecv →
      coord_fail_behavior op = FailBehavior.exitWorker (-1))
    ∧ coord_fail_behavior CoordOp.gateRecv = FailBehavior.warnContinue
    ∧ ((-1 : Int) ≠ worker_success_status)
    ∧ (∀ n ok1 ok2, ok1 = false ∨ ok2 = false →
        process_result ok1 ok2 n = (-1, 0)) := by
  refine ⟨?_, rfl, by decide, ?_⟩
  · intro op hop
    cases op with
    | tokenRecv => rfl
    | tokenResendSend => rfl
    | gateRecv => exact absurd rfl hop
    | tokenHandoffSend => rfl
    | gateSendNext => rfl
  · intro n ok1 ok2 h
    rcases h with h | h
    · subst h; cases ok2 <;> rfl
    · subst h; cases ok1 <;> rfl

/-! ## Claim C10: unconditional derivation of both artifacts -/

/-- Claim C10: for every image, regardless of its sequence index, the first
two actions of its worker are the two resize requests — the thumbnail at
"10%" named "thumb_" ++ basename, then the medium variant at "25%" named
"med_" ++ basename — and neither of these is a waiting action, so both
derivation requests precede every wait in the pipeline. -/
theorem album_c10_unconditional_resizes :
    (∀ index path, (process_img_script index path).take 2 =
      [PAction.resizeReq path ("thumb_" ++ img_basename path) "10%",
       PAction.resizeReq path ("med_" ++ img_basename path) "25%"])
    ∧ (∀ index path a, a ∈ (process_img_script index path).take 2 →
        isWaitAction a = false)
    ∧ thumb_name "photos/cat.jpg" = "thumb_cat.jpg"
    ∧ med_name "cat.jpg" = "med_cat.jpg"
    ∧ img_basename "a/b/c.png" = "c.png" := by
  refine ⟨fun index path => rfl, ?_, by decide, by decide, by decide⟩
  intro index path a ha
  have he : (process_img_script index path).take 2 =
      [PAction.resizeReq path (thumb_name path) "10%",
       PAction.resizeReq path (med_name path) "25%"] := rfl
  rw [he] at ha
  rcases List.mem_cons.mp ha with h | h
  · subst h; rfl
  · rcases List.mem_cons.mp h with h2 | h2
    · subst h2; rfl
    · cases h2

/-! ## Claim C4: the concurrency cap of the scheduler -/

theorem countP_le_of_imp {p q : Nat → Bool}
    (h : ∀ a, p a = true → q a = true) :
    ∀ l : List Nat, l.countP p ≤ l.countP q := by
  intro l
  induction l with
  | nil => simp
  | cons a t ih =>
    rw [List.countP_cons, List.countP_cons]
    have hone : (if p a then 1 else 0) ≤ (if q a then 1 else 0) := by
      by_cases hp : p a = true
      · simp [hp, h a hp]
      · simp [hp]
    omega

theorem schedInv_init : SchedInv schedInit := by
  refine ⟨fun j _ => rfl, ?_, rfl⟩
  show (List.range 0).countP _ ≤ _
  simp [max_conversions]

theorem schedInv_step {N : Nat} {st st' : Sched} (h : SchedInv st)
    (hs : SStep N st st') : SchedInv st' := by
  obtain ⟨hfr, hcap, hord⟩ := h
  cases hs with
  | spawn hlt hc =>
    refine ⟨?_, ?_, ?_⟩
    · intro j hj
      have hj2 : st.spawned + 1 ≤ j := hj
      exact hfr j (by omega)
    · show (List.range (st.spawned + 1)).countP (fun a => ! st.dead a) ≤
        max_conversions
      rw [List.range_succ, List.countP_append]
      have h1 : List.countP (fun a => ! st.dead a) [st.spawned] = 1 := by
        simp [List.countP_cons, hfr st.spawned (le_refl _)]
      rw [h1]
      exact hc
    · show st.order ++ [st.spawned] = List.range (st.spawned + 1)
      rw [hord, List.range_succ]
  | finish j hj hd =>
    refine ⟨?_, ?_, hord⟩
    · intro j2 hj2
      have hj3 : st.spawned ≤ j2 := hj2
      show upd st.dead j true j2 = false
      rw [upd_ne st.dead j true (by omega)]
      exact hfr j2 hj3
    · show (List.range st.spawned).countP (fun a => ! upd st.dead j true a) ≤
        max_conversions
      have hle : (List.range st.spawned).countP (fun a => ! upd st.dead j true a)
          ≤ (List.range st.spawned).countP (fun a => ! st.dead a) := by
        apply countP_le_of_imp
        intro a ha
        dsimp only at ha ⊢
        by_cases haj : a = j
        · subst haj
          rw [upd_self] at ha
          simp at ha
        · rw [upd_ne st.dead j true haj] at ha
          exact ha
      have hc2 : (List.range st.spawned).countP (fun a => ! st.dead a) ≤
          max_conversions := hcap
      omega

theorem schedInv_reach {N : Nat} {st : Sched} (h : SReach N st) : SchedInv st := by
  induction h with
  | init => exact schedInv_init
  | step _ hs ih => exact schedInv_step ih hs

/-- Claim C4: in every reachable scheduler state the number of live workers
is at most `max_conversions` (= 3); membership of the pool changes only via
the spawn and finish transitions of `SStep`; and workers are forked exactly
in sequence-index order 0, 1, 2, ..., which is strictly increasing. -/
theorem album_c4_concurrency_cap (N : Nat) (st : Sched) (h : SReach N st) :
    C4Prop st := by
  obtain ⟨hfr, hcap, hord⟩ := schedInv_reach h
  refine ⟨hcap, hord, ?_⟩
  rw [hord]
  exact List.pairwise_lt_range st.spawned

/-! ## Invariant machinery for the worker system -/

theorem chThr_upd {N : Nat} {w : Nat → WState} {lo t bnd k : Nat} {x : WState}
    (h : chThr N w lo t bnd)
    (hk : lo ≤ k → k ≤ N → (t ≤ x.pc ↔ t ≤ (w k).pc)) :
    chThr N (upd w k x) lo t bnd := by
  intro i hlo hN
  by_cases hik : i = k
  · subst hik
    rw [upd_self]
    rw [hk hlo hN]
    exact h i hlo hN
  · rw [upd_ne w k x hik]
    exact h i hlo hN

theorem chThr_bump {N : Nat} {w : Nat → WState} {lo t bnd k : Nat} {x : WState}
    (h : chThr N w lo t bnd) (hlo : lo ≤ k) (hkN : k ≤ N)
    (hold : ¬ t ≤ (w k).pc) (hnew : t ≤ x.pc) (hk : k = bnd + 1) :
    chThr N (upd w k x) lo t (bnd + 1) := by
  intro i hloi hNi
  by_cases hik : i = k
  · subst hik
    rw [upd_self]
    exact iff_of_true hnew (by omega)
  · rw [upd_ne w k x hik]
    have hi := h i hloi hNi
    constructor
    · intro ht
      have := hi.mp ht
      omega
    · intro hle
      apply hi.mpr
      omega

theorem heldNone_upd {w : Nat → WState} {k : Nat} {x : WState}
    (h : heldNone w) (hx : x.held = none) : heldNone (upd w k x) := by
  intro i
  by_cases hik : i = k
  · subst hik; rw [upd_self]; exact hx
  · rw [upd_ne w k x hik]; exact h i

theorem held_none_of_pc_ne_two {N : Nat} {q : List Nat} {w : Nat → WState}
    {p m : Nat} (hq : QInv N q w p m) (i : Nat) (hpc : (w i).pc ≠ 2) :
    (w i).held = none := by
  rcases hq with ⟨_, h2, _⟩ | ⟨_, h2, _, _⟩ |
    ⟨_, _, _, k0, _, _, hk0pc, _, hoth⟩
  · exact h2 i
  · exact h2 i
  · by_cases hik : i = k0
    · subst hik; exact absurd hk0pc hpc
    · exact hoth i hik

theorem QInv_upd {N : Nat} {q : List Nat} {w : Nat → WState} {p m k : Nat}
    {x : WState} (hq : QInv N q w p m) (hk : (w k).held = none)
    (hx : x.held = none) : QInv N q (upd w k x) p m := by
  rcases hq with ⟨h1, h2, h3⟩ | ⟨h1, h2, h3, h4⟩ |
    ⟨h1, h3, h4, k0, hk02, hk0N, hk0pc, hk0h, hoth⟩
  · exact Or.inl ⟨h1, heldNone_upd h2 hx, h3⟩
  · exact Or.inr (Or.inl ⟨h1, heldNone_upd h2 hx, h3, h4⟩)
  · have hne : k0 ≠ k := by
      intro he
      rw [he, hk] at hk0h
      exact Option.noConfusion hk0h
    refine Or.inr (Or.inr ⟨h1, h3, h4, k0, hk02, hk0N, ?_, ?_, ?_⟩)
    · rw [upd_ne w k x hne]; exact hk0pc
    · rw [upd_ne w k x hne]; exact hk0h
    · intro j hj
      by_cases hjk : j = k
      · subst hjk; rw [upd_self]; exact hx
      · rw [upd_ne w k x hjk]; exact hoth j hj

theorem heldNone_upd_of_others {w : Nat → WState} {k : Nat} {x : WState}
    (hoth : ∀ j, j ≠ k → (w j).held = none) (hx : x.held = none) :
    heldNone (upd w k x) := by
  intro j
  by_cases hjk : j = k
  · subst hjk; rw [upd_self]; exact hx
  · rw [upd_ne w k x hjk]; exact hoth j hjk

theorem sysInv_init (N : Nat) : SysInv N sysInit := by
  refine ⟨0, 0, 0, 1, le_refl 0, Nat.zero_le N, by omega, le_refl 0,
    le_refl 1, ?_, ?_, ?_, ?_, rfl, ?_⟩
  · intro i h1 h2
    exact iff_of_false (show ¬ (3 : Nat) ≤ 0 by decide) (by omega)
  · intro i h1 h2
    exact iff_of_false (show ¬ (10 : Nat) ≤ 0 by decide) (by omega)
  · intro i h1 h2
    exact iff_of_false (show ¬ (11 : Nat) ≤ 0 by decide) (by omega)
  · intro i h1 h2
    exact iff_of_false (show ¬ (6 : Nat) ≤ 0 by decide) (by omega)
  · exact Or.inl ⟨rfl, fun i => rfl, Or.inr rfl⟩

theorem sysInv_step {N : Nat} {s s' : Sys} (hinv : SysInv N s)
    (hs : Step N s s') : SysInv N s' := by
  obtain ⟨p, m, mg, d, hm, hp, hpm, hmg, hd, c3, c10, c11, c6, hglen, hq⟩ := hinv
  cases hs with
  | resizeThumb i h1 hN hpc =>
    refine ⟨p, m, mg, d, hm, hp, hpm, hmg, hd, ?_, ?_, ?_, ?_, hglen, ?_⟩
    · exact chThr_upd c3 (fun _ _ => by rw [hpc] <;> decide)
    · exact chThr_upd c10 (fun _ _ => by rw [hpc] <;> decide)
    · exact chThr_upd c11 (fun _ _ => by rw [hpc] <;> decide)
    · exact chThr_upd c6 (fun _ _ => by rw [hpc] <;> decide)
    · exact QInv_upd hq (held_none_of_pc_ne_two hq i (by rw [hpc] <;> decide)) rfl
  | resizeMed i h1 hN hpc =>
    refine ⟨p, m, mg, d, hm, hp, hpm, hmg, hd, ?_, ?_, ?_, ?_, hglen, ?_⟩
    · exact chThr_upd c3 (fun _ _ => by rw [hpc] <;> decide)
    · exact chThr_upd c10 (fun _ _ => by rw [hpc] <;> decide)
    · exact chThr_upd c11 (fun _ _ => by rw [hpc] <;> decide)
    · exact chThr_upd c6 (fun _ _ => by rw [hpc] <;> decide)
    · exact QInv_upd hq (held_none_of_pc_ne_two hq i (by rw [hpc] <;> decide)) rfl
  | tokenSkip hN hpc =>
    have h31 : ¬ 3 ≤ (s.w 1).pc := by rw [hpc] <;> decide
    have hp0 : p = 0 := by
      by_contra hne
      exact h31 ((c3 1 (le_refl 1) hN).mpr (Nat.pos_of_ne_zero hne))
    have hm0 : m = 0 := by omega
    subst hp0
    subst hm0
    refine ⟨1, 0, mg, d, by omega, hN, by omega, hmg, hd, ?_, ?_, ?_, ?_,
      hglen, ?_⟩
    · exact chThr_bump c3 (le_refl 1) hN h31 (by decide) (by omega)
    · exact chThr_upd c10 (fun _ _ => by rw [hpc] <;> decide)
    · exact chThr_upd c11 (fun _ _ => by rw [hpc] <;> decide)
    · exact chThr_upd c6 (fun hlo _ => absurd hlo (by decide))
    · rcases hq with ⟨h1, h2, _⟩ | ⟨_, _, _, hm1⟩ | ⟨_, _, hm1, _⟩
      · exact Or.inl ⟨h1, heldNone_upd h2 rfl, Or.inl rfl⟩
      · omega
      · omega
  | tokenRead i v rest hi2 hN hpc hh hq0 =>
    rcases hq with ⟨h1, _, _⟩ | ⟨h1, h2, h3, h4⟩ | ⟨h1, _, _, _⟩
    · rw [hq0] at h1
      simp at h1
    · have hinj : m + 1 = v ∧ [] = rest := by
        rw [h1] at hq0
        injection hq0 with ha hb
        exact ⟨ha, hb⟩
      obtain ⟨hv1, hv2⟩ := hinj
      refine ⟨p, m, mg, d, hm, hp, hpm, hmg, hd, ?_, ?_, ?_, ?_, hglen, ?_⟩
      · exact chThr_upd c3 (fun _ _ => by rw [hpc] <;> decide)
      · exact chThr_upd c10 (fun _ _ => by rw [hpc] <;> decide)
      · exact chThr_upd c11 (fun _ _ => by rw [hpc] <;> decide)
      · exact chThr_upd c6 (fun _ _ => by rw [hpc] <;> decide)
      · refine Or.inr (Or.inr ⟨hv2.symm, h3, h4, i, hi2, hN, ?_, ?_, ?_⟩)
        · show (upd s.w i ⟨2, some v⟩ i).pc = 2
          rw [upd_self]
        · show (upd s.w i ⟨2, some v⟩ i).held = some (m + 1)
          rw [upd_self, ← hv1]
        · intro j hj
          show (upd s.w i ⟨2, some v⟩ j).held = none
          rw [upd_ne s.w i ⟨2, some v⟩ hj]
          exact h2 j
    · rw [hq0] at h1
      simp at h1
  | tokenResend i v hi2 hN hpc hh hne =>
    rcases hq with ⟨_, h2, _⟩ | ⟨_, h2, _, _⟩ |
      ⟨h1, h3, h4, k0, hk02, hk0N, hk0pc, hk0h, hoth⟩
    · rw [h2 i] at hh; exact Option.noConfusion hh
    · rw [h2 i] at hh; exact Option.noConfusion hh
    · have hik : i = k0 := by
        by_contra hne2
        rw [hoth i hne2] at hh
        exact Option.noConfusion hh
      subst hik
      have hv : v = m + 1 := by
        rw [hk0h] at hh
        exact (Option.some.inj hh).symm
      refine ⟨p, m, mg, d, hm, hp, hpm, hmg, hd, ?_, ?_, ?_, ?_, hglen, ?_⟩
      · exact chThr_upd c3 (fun _ _ => by rw [hpc] <;> decide)
      · exact chThr_upd c10 (fun _ _ => by rw [hpc] <;> decide)
      · exact chThr_upd c11 (fun _ _ => by rw [hpc] <;> decide)
      · exact chThr_upd c6 (fun _ _ => by rw [hpc] <;> decide)
      · refine Or.inr (Or.inl ⟨?_, ?_, h3, h4⟩)
        · show s.htmlQ ++ [v] = [m + 1]
          rw [h1, hv]
          rfl
        · exact heldNone_upd_of_others hoth rfl
  | tokenPass i hi2 hN hpc hh =>
    rcases hq with ⟨_, h2, _⟩ | ⟨_, h2, _, _⟩ |
      ⟨h1, h3, h4, k0, hk02, hk0N, hk0pc, hk0h, hoth⟩
    · rw [h2 i] at hh; exact Option.noConfusion hh
    · rw [h2 i] at hh; exact Option.noConfusion hh
    · have hik : i = k0 := by
        by_contra hne2
        rw [hoth i hne2] at hh
        exact Option.noConfusion hh
      subst hik
      have hi : m + 1 = i := by
        rw [hk0h] at hh
        exact Option.some.inj hh
      refine ⟨p + 1, m, mg, d, by omega, by omega, by omega, hmg, hd,
        ?_, ?_, ?_, ?_, hglen, ?_⟩
      · exact chThr_bump c3 (by omega) hN (by rw [hpc] <;> decide) (by decide)
          (by omega)
      · exact chThr_upd c10 (fun _ _ => by rw [hpc] <;> decide)
      · exact chThr_upd c11 (fun _ _ => by rw [hpc] <;> decide)
      · exact chThr_upd c6 (fun _ _ => by rw [hpc] <;> decide)
      · refine Or.inl ⟨h1, ?_, Or.inl (by omega)⟩
        exact heldNone_upd_of_others hoth rfl
  | forkLink i h1 hN hpc =>
    refine ⟨p, m, mg, d, hm, hp, hpm, hmg, hd, ?_, ?_, ?_, ?_, hglen, ?_⟩
    · exact chThr_upd c3 (fun _ _ => by rw [hpc] <;> decide)
    · exact chThr_upd c10 (fun _ _ => by rw [hpc] <;> decide)
    · exact chThr_upd c11 (fun _ _ => by rw [hpc] <;> decide)
    · exact chThr_upd c6 (fun _ _ => by rw [hpc] <;> decide)
    · exact QInv_upd hq (held_none_of_pc_ne_two hq i (by rw [hpc] <;> decide)) rfl
  | waitResize i h1 hN hpc =>
    refine ⟨p, m, mg, d, hm, hp, hpm, hmg, hd, ?_, ?_, ?_, ?_, hglen, ?_⟩
    · exact chThr_upd c3 (fun _ _ => by rw [hpc] <;> decide)
    · exact chThr_upd c10 (fun _ _ => by rw [hpc] <;> decide)
    · exact chThr_upd c11 (fun _ _ => by rw [hpc] <;> decide)
    · exact chThr_upd c6 (fun _ _ => by rw [hpc] <;> decide)
    · exact QInv_upd hq (held_none_of_pc_ne_two hq i (by rw [hpc] <;> decide)) rfl
  | gateSkip hN hpc =>
    refine ⟨p, m, mg, d, hm, hp, hpm, hmg, hd, ?_, ?_, ?_, ?_, hglen, ?_⟩
    · exact chThr_upd c3 (fun _ _ => by rw [hpc] <;> decide)
    · exact chThr_upd c10 (fun _ _ => by rw [hpc] <;> decide)
    · exact chThr_upd c11 (fun _ _ => by rw [hpc] <;> decide)
    · exact chThr_upd c6 (fun hlo _ => absurd hlo (by decide))
    · exact QInv_upd hq (held_none_of_pc_ne_two hq 1 (by rw [hpc] <;> decide)) rfl
  | gateRead i v rest hi2 hN hpc hg =>
    have hip : i ≤ p := (c3 i (by omega) hN).mp (by rw [hpc] <;> decide)
    have hid : ¬ i ≤ d := fun hled =>
      absurd ((c6 i hi2 hN).mpr hled) (by rw [hpc] <;> decide)
    have hile : i ≤ d + 1 := by
      by_cases hi3 : 3 ≤ i
      · have hj2 : 2 ≤ i - 1 := by omega
        have hjN : i - 1 ≤ N := by omega
        have hjm : i - 1 ≤ m := by omega
        have h10 : 10 ≤ (s.w (i - 1)).pc := (c10 (i - 1) (by omega) hjN).mpr hjm
        have h6 : 6 ≤ (s.w (i - 1)).pc := by omega
        have := (c6 (i - 1) hj2 hjN).mp h6
        omega
      · omega
    have hieq : i = d + 1 := by omega
    have hlen : mg + 1 = rest.length + 1 + d := by
      rw [hg] at hglen
      simp [List.length_cons] at hglen
      omega
    refine ⟨p, m, mg, d + 1, hm, hp, hpm, hmg, by omega, ?_, ?_, ?_, ?_, ?_, ?_⟩
    · exact chThr_upd c3 (fun _ _ => by rw [hpc] <;> decide)
    · exact chThr_upd c10 (fun _ _ => by rw [hpc] <;> decide)
    · exact chThr_upd c11 (fun _ _ => by rw [hpc] <;> decide)
    · exact chThr_bump c6 hi2 hN (by rw [hpc] <;> decide) (by decide) hieq
    · show mg + 1 = rest.length + (d + 1)
      omega
    · exact QInv_upd hq (held_none_of_pc_ne_two hq i (by rw [hpc] <;> decide)) rfl
  | beginDisplay i h1 hN hpc =>
    refine ⟨p, m, mg, d, hm, hp, hpm, hmg, hd, ?_, ?_, ?_, ?_, hglen, ?_⟩
    · exact chThr_upd c3 (fun _ _ => by rw [hpc] <;> decide)
    · exact chThr_upd c10 (fun _ _ => by rw [hpc] <;> decide)
    · exact chThr_upd c11 (fun _ _ => by rw [hpc] <;> decide)
    · exact chThr_upd c6 (fun _ _ => by rw [hpc] <;> decide)
    · exact QInv_upd hq (held_none_of_pc_ne_two hq i (by rw [hpc] <;> decide)) rfl
  | interact i h1 hN hpc =>
    refine ⟨p, m, mg, d, hm, hp, hpm, hmg, hd, ?_, ?_, ?_, ?_, hglen, ?_⟩
    · exact chThr_upd c3 (fun _ _ => by rw [hpc] <;> decide)
    · exact chThr_upd c10 (fun _ _ => by rw [hpc] <;> decide)
    · exact chThr_upd c11 (fun _ _ => by rw [hpc] <;> decide)
    · exact chThr_upd c6 (fun _ _ => by rw [hpc] <;> decide)
    · exact QInv_upd hq (held_none_of_pc_ne_two hq i (by rw [hpc] <;> decide)) rfl
  | writeCaption i h1 hN hpc =>
    refine ⟨p, m, mg, d, hm, hp, hpm, hmg, hd, ?_, ?_, ?_, ?_, hglen, ?_⟩
    · exact chThr_upd c3 (fun _ _ => by rw [hpc] <;> decide)
    · exact chThr_upd c10 (fun _ _ => by rw [hpc] <;> decide)
    · exact chThr_upd c11 (fun _ _ => by rw [hpc] <;> decide)
    · exact chThr_upd c6 (fun _ _ => by rw [hpc] <;> decide)
    · exact QInv_upd hq (held_none_of_pc_ne_two hq i (by rw [hpc] <;> decide)) rfl
  | tokenHandoff i h1i hN hpc =>
    have hip : i ≤ p := (c3 i h1i hN).mp (by rw [hpc] <;> decide)
    have him : ¬ i ≤ m := fun hle =>
      absurd ((c10 i h1i hN).mpr hle) (by rw [hpc] <;> decide)
    have hieq : i = m + 1 := by omega
    have hpeq : p = m + 1 := by omega
    rcases hq with ⟨h1, h2, _⟩ | ⟨_, _, h3, _⟩ | ⟨_, h3, _, _⟩
    · refine ⟨p, m + 1, mg, d, by omega, hp, by omega, by omega, hd,
        ?_, ?_, ?_, ?_, hglen, ?_⟩
      · exact chThr_upd c3 (fun _ _ => by rw [hpc] <;> decide)
      · exact chThr_bump c10 h1i hN (by rw [hpc] <;> decide) (by decide) hieq
      · exact chThr_upd c11 (fun _ _ => by rw [hpc] <;> decide)
      · exact chThr_upd c6 (fun _ _ => by rw [hpc] <;> decide)
      · refine Or.inr (Or.inl ⟨?_, ?_, hpeq, by omega⟩)
        · show s.htmlQ ++ [i + 1] = [m + 1 + 1]
          rw [h1, hieq]
          rfl
        · exact heldNone_upd h2 rfl
    · omega
    · omega
  | gateNotify i h1i hN hpc =>
    have him : i ≤ m := (c10 i h1i hN).mp (by rw [hpc] <;> decide)
    have himg : ¬ i ≤ mg := fun hle =>
      absurd ((c11 i h1i hN).mpr hle) (by rw [hpc] <;> decide)
    have hile : i ≤ mg + 1 := by
      by_cases hi2 : 2 ≤ i
      · have := (c6 i hi2 hN).mp (by rw [hpc] <;> decide)
        omega
      · omega
    have hieq : i = mg + 1 := by omega
    refine ⟨p, m, mg + 1, d, hm, hp, hpm, by omega, hd, ?_, ?_, ?_, ?_, ?_, ?_⟩
    · exact chThr_upd c3 (fun _ _ => by rw [hpc] <;> decide)
    · exact chThr_upd c10 (fun _ _ => by rw [hpc] <;> decide)
    · exact chThr_bump c11 h1i hN (by rw [hpc] <;> decide) (by decide) hieq
    · exact chThr_upd c6 (fun _ _ => by rw [hpc] <;> decide)
    · show mg + 1 + 1 = (s.gateQ ++ [i + 1]).length + d
      rw [List.length_append]
      simp
      omega
    · exact QInv_upd hq (held_none_of_pc_ne_two hq i (by rw [hpc] <;> decide)) rfl
  | linkWrite i h1i hN ht =>
    exact ⟨p, m, mg, d, hm, hp, hpm, hmg, hd, c3, c10, c11, c6, hglen, hq⟩

theorem sysInv_reach {N : Nat} {s : Sys} (h : Reach N s) : SysInv N s := by
  induction h with
  | init => exact sysInv_init N
  | step _ hs ih => exact sysInv_step ih hs

theorem worker_one_held_none {N : Nat} {q : List Nat} {w : Nat → WState}
    {p m : Nat} (hq : QInv N q w p m) : (w 1).held = none := by
  rcases hq with ⟨_, h2, _⟩ | ⟨_, h2, _, _⟩ | ⟨_, _, _, k0, hk02, _, _, _, hoth⟩
  · exact h2 1
  · exact h2 1
  · exact hoth 1 (by omega)

/-- Claim C3 (amended): in every reachable state, a worker k ≥ 2 that has
begun its display step is preceded by worker k-1 having sent its gate
signal — which in turn happens only after worker k-1's caption-write step —
and worker 1 can always pass its (skipped) gate without touching the gate
pipe. -/
theorem album_c3_display_gating (N : Nat) (s : Sys) (h : Reach N s) :
    C3Prop N s := by
  obtain ⟨p, m, mg, d, hm, hp, hpm, hmg, hd, c3, c10, c11, c6, hglen, hq⟩ :=
    sysInv_reach h
  constructor
  · intro k h2 hkN h7
    have h6 : 6 ≤ (s.w k).pc := by omega
    have hkd : k ≤ d := (c6 k h2 hkN).mp h6
    have h11 : 11 ≤ (s.w (k - 1)).pc := by
      apply (c11 (k - 1) (by omega) (by omega)).mpr
      omega
    exact ⟨h11, by omega⟩
  · intro hpc hN
    exact Step.gateSkip s hN hpc

/-- Claim C2 (amended): the token-ring protocol of the Output Sequencer.
Worker 1 is never mid-poll and passes its skipped poll unconditionally; a
polling worker that holds a value different from its index re-emits exactly
that value unchanged and keeps polling; one that holds its own index stops
polling and proceeds without emitting; the hand-off step of worker i emits
exactly i+1 and happens only after the caption-write step (the forked
link-block write may still be pending at that point — see the
counterexample); and no consumed token value ever exceeds N, so the final
hand-off value N+1 is never consumed. -/
theorem album_c2_token_ring (N : Nat) (s : Sys) (h : Reach N s) :
    C2Prop N s := by
  obtain ⟨p, m, mg, d, hm, hp, hpm, hmg, hd, c3, c10, c11, c6, hglen, hq⟩ :=
    sysInv_reach h
  refine ⟨worker_one_held_none hq, ?_, ?_, ?_, ?_⟩
  · intro hpc hN
    exact Step.tokenSkip s hN hpc
  · intro s' i v hst h1i hiN hh hwne
    rcases hq with ⟨_, h2, _⟩ | ⟨_, h2, _, _⟩ |
      ⟨hq1, hq3, hq4, k0, hk02, hk0N, hk0pc, hk0h, hoth⟩
    · rw [h2 i] at hh; exact Option.noConfusion hh
    · rw [h2 i] at hh; exact Option.noConfusion hh
    · have hik : i = k0 := by
        by_contra hne2
        rw [hoth i hne2] at hh
        exact Option.noConfusion hh
      subst hik
      have hpci : (s.w i).pc = 2 := hk0pc
      cases hst with
      | resizeThumb j hj1 hjN hpcj =>
        by_cases hji : i = j
        · subst hji; omega
        · exact absurd (upd_ne s.w j ⟨1, none⟩ hji) hwne
      | resizeMed j hj1 hjN hpcj =>
        by_cases hji : i = j
        · subst hji; omega
        · exact absurd (upd_ne s.w j ⟨2, none⟩ hji) hwne
      | tokenSkip hjN hpcj =>
        exact absurd (upd_ne s.w 1 ⟨3, none⟩ (by omega)) hwne
      | tokenRead j v0 rest0 hj2 hjN hpcj hhj hq0 =>
        by_cases hji : i = j
        · subst hji; rw [hhj] at hh; exact Option.noConfusion hh
        · exact absurd (upd_ne s.w j ⟨2, some v0⟩ hji) hwne
      | tokenResend j v0 hj2 hjN hpcj hhj hnej =>
        by_cases hji : i = j
        · subst hji
          have hv0 : v0 = v := by
            rw [hh] at hhj
            exact (Option.some.inj hhj).symm
          subst hv0
          constructor
          · intro hvne
            refine ⟨?_, rfl, rfl, rfl⟩
            show upd s.w i ⟨2, none⟩ i = ⟨2, none⟩
            rw [upd_self]
          · intro hveq
            exact absurd hveq hnej
        · exact absurd (upd_ne s.w j ⟨2, none⟩ hji) hwne
      | tokenPass j hj2 hjN hpcj hhj =>
        by_cases hji : i = j
        · subst hji
          have hvi : v = i := by
            rw [hh] at hhj
            exact Option.some.inj hhj
          constructor
          · intro hvne; exact absurd hvi hvne
          · intro _
            refine ⟨?_, rfl, rfl⟩
            show upd s.w i ⟨3, none⟩ i = ⟨3, none⟩
            rw [upd_self]
        · exact absurd (upd_ne s.w j ⟨3, none⟩ hji) hwne
      | forkLink j hj1 hjN hpcj =>
        by_cases hji : i = j
        · subst hji; omega
        · exact absurd (upd_ne s.w j ⟨4, none⟩ hji) hwne
      | waitResize j hj1 hjN hpcj =>
        by_cases hji : i = j
        · subst hji; omega
        · exact absurd (upd_ne s.w j ⟨5, none⟩ hji) hwne
      | gateSkip hjN hpcj =>
        exact absurd (upd_ne s.w 1 ⟨6, none⟩ (by omega)) hwne
      | gateRead j v0 rest0 hj2 hjN hpcj hg0 =>
        by_cases hji : i = j
        · subst hji; omega
        · exact absurd (upd_ne s.w j ⟨6, none⟩ hji) hwne
      | beginDisplay j hj1 hjN hpcj =>
        by_cases hji : i = j
        · subst hji; omega
        · exact absurd (upd_ne s.w j ⟨7, none⟩ hji) hwne
      | interact j hj1 hjN hpcj =>
        by_cases hji : i = j
        · subst hji; omega
        · exact absurd (upd_ne s.w j ⟨8, none⟩ hji) hwne
      | writeCaption j hj1 hjN hpcj =>
        by_cases hji : i = j
        · subst hji; omega
        · exact absurd (upd_ne s.w j ⟨9, none⟩ hji) hwne
      | tokenHandoff j hj1 hjN hpcj =>
        by_cases hji : i = j
        · subst hji; omega
        · exact absurd (upd_ne s.w j ⟨10, none⟩ hji) hwne
      | gateNotify j hj1 hjN hpcj =>
        by_cases hji : i = j
        · subst hji; omega
        · exact absurd (upd_ne s.w j ⟨11, none⟩ hji) hwne
      | linkWrite j hj1 hjN htj =>
        exact absurd rfl hwne
  · intro s' i hst h1i hiN hpci hwne
    cases hst with
    | resizeThumb j hj1 hjN hpcj =>
      by_cases hji : i = j
      · subst hji; omega
      · exact absurd (upd_ne s.w j ⟨1, none⟩ hji) hwne
    | resizeMed j hj1 hjN hpcj =>
      by_cases hji : i = j
      · subst hji; omega
      · exact absurd (upd_ne s.w j ⟨2, none⟩ hji) hwne
    | tokenSkip hjN hpcj =>
      by_cases hji : i = 1
      · subst hji; omega
      · exact absurd (upd_ne s.w 1 ⟨3, none⟩ hji) hwne
    | tokenRead j v0 rest0 hj2 hjN hpcj hhj hq0 =>
      by_cases hji : i = j
      · subst hji; omega
      · exact absurd (upd_ne s.w j ⟨2, some v0⟩ hji) hwne
    | tokenResend j v0 hj2 hjN hpcj hhj hnej =>
      by_cases hji : i = j
      · subst hji; omega
      · exact absurd (upd_ne s.w j ⟨2, none⟩ hji) hwne
    | tokenPass j hj2 hjN hpcj hhj =>
      by_cases hji : i = j
      · subst hji; omega
      · exact absurd (upd_ne s.w j ⟨3, none⟩ hji) hwne
    | forkLink j hj1 hjN hpcj =>
      by_cases hji : i = j
      · subst hji; omega
      · exact absurd (upd_ne s.w j ⟨4, none⟩ hji) hwne
    | waitResize j hj1 hjN hpcj =>
      by_cases hji : i = j
      · subst hji; omega
      · exact absurd (upd_ne s.w j ⟨5, none⟩ hji) hwne
    | gateSkip hjN hpcj =>
      by_cases hji : i = 1
      · subst hji; omega
      · exact absurd (upd_ne s.w 1 ⟨6, none⟩ hji) hwne
    | gateRead j v0 rest0 hj2 hjN hpcj hg0 =>
      by_cases hji : i = j
      · subst hji; omega
      · exact absurd (upd_ne s.w j ⟨6, none⟩ hji) hwne
    | beginDisplay j hj1 hjN hpcj =>
      by_cases hji : i = j
      · subst hji; omega
      · exact absurd (upd_ne s.w j ⟨7, none⟩ hji) hwne
    | interact j hj1 hjN hpcj =>
      by_cases hji : i = j
      · subst hji; omega
      · exact absurd (upd_ne s.w j ⟨8, none⟩ hji) hwne
    | writeCaption j hj1 hjN hpcj =>
      by_cases hji : i = j
      · subst hji; omega
      · exact absurd (upd_ne s.w j ⟨9, none⟩ hji) hwne
    | tokenHandoff j hj1 hjN hpcj =>
      by_cases hji : i = j
      · subst hji
        refine ⟨rfl, ?_, by omega⟩
        show (upd s.w i ⟨10, none⟩ i).pc = 10
        rw [upd_self]
      · exact absurd (upd_ne s.w j ⟨10, none⟩ hji) hwne
    | gateNotify j hj1 hjN hpcj =>
      by_cases hji : i = j
      · subst hji; omega
      · exact absurd (upd_ne s.w j ⟨11, none⟩ hji) hwne
    | linkWrite j hj1 hjN htj =>
      exact absurd rfl hwne
  · intro s' v rest hst hfrom hto
    cases hst with
    | resizeThumb j hj1 hjN hpcj =>
      have hto2 : s.htmlQ = rest := hto
      rw [hfrom] at hto2
      exact absurd hto2 (List.cons_ne_self v rest)
    | resizeMed j hj1 hjN hpcj =>
      have hto2 : s.htmlQ = rest := hto
      rw [hfrom] at hto2
      exact absurd hto2 (List.cons_ne_self v rest)
    | tokenSkip hjN hpcj =>
      have hto2 : s.htmlQ = rest := hto
      rw [hfrom] at hto2
      exact absurd hto2 (List.cons_ne_self v rest)
    | tokenRead j v0 rest0 hj2 hjN hpcj hhj hq0 =>
      rcases hq with ⟨h1, _, _⟩ | ⟨h1, h2, h3, h4⟩ | ⟨h1, _, _, _⟩
      · rw [hfrom] at h1
        exact absurd h1 (by simp)
      · have hv : v = m + 1 := by
          rw [hfrom] at h1
          exact (List.cons.inj h1).1
        have hjp : ¬ j ≤ p := fun hle =>
          absurd ((c3 j (by omega) hjN).mpr hle) (by rw [hpcj] <;> decide)
        omega
      · rw [hfrom] at h1
        exact absurd h1 (by simp)
    | tokenResend j v0 hj2 hjN hpcj hhj hnej =>
      have hto2 : s.htmlQ ++ [v0] = rest := hto
      rw [hfrom] at hto2
      have hl : ((v :: rest) ++ [v0]).length = rest.length := by rw [hto2]
      simp only [List.length_append, List.length_cons] at hl
      omega
    | tokenPass j hj2 hjN hpcj hhj =>
      have hto2 : s.htmlQ = rest := hto
      rw [hfrom] at hto2
      exact absurd hto2 (List.cons_ne_self v rest)
    | forkLink j hj1 hjN hpcj =>
      have hto2 : s.htmlQ = rest := hto
      rw [hfrom] at hto2
      exact absurd hto2 (List.cons_ne_self v rest)
    | waitResize j hj1 hjN hpcj =>
      have hto2 : s.htmlQ = rest := hto
      rw [hfrom] at hto2
      exact absurd hto2 (List.cons_ne_self v rest)
    | gateSkip hjN hpcj =>
      have hto2 : s.htmlQ = rest := hto
      rw [hfrom] at hto2
      exact absurd hto2 (List.cons_ne_self v rest)
    | gateRead j v0 rest0 hj2 hjN hpcj hg0 =>
      have hto2 : s.htmlQ = rest := hto
      rw [hfrom] at hto2
      exact absurd hto2 (List.cons_ne_self v rest)
    | beginDisplay j hj1 hjN hpcj =>
      have hto2 : s.htmlQ = rest := hto
      rw [hfrom] at hto2
      exact absurd hto2 (List.cons_ne_self v rest)
    | interact j hj1 hjN hpcj =>
      have hto2 : s.htmlQ = rest := hto
      rw [hfrom] at hto2
      exact absurd hto2 (List.cons_ne_self v rest)
    | writeCaption j hj1 hjN hpcj =>
      have hto2 : s.htmlQ = rest := hto
      rw [hfrom] at hto2
      exact absurd hto2 (List.cons_ne_self v rest)
    | tokenHandoff j hj1 hjN hpcj =>
      have hto2 : s.htmlQ ++ [j + 1] = rest := hto
      rw [hfrom] at hto2
      have hl : ((v :: rest) ++ [j + 1]).length = rest.length := by rw [hto2]
      simp only [List.length_append, List.length_cons] at hl
      omega
    | gateNotify j hj1 hjN hpcj =>
      have hto2 : s.htmlQ = rest := hto
      rw [hfrom] at hto2
      exact absurd hto2 (List.cons_ne_self v rest)
    | linkWrite j hj1 hjN htj =>
      have hto2 : s.htmlQ = rest := hto
      rw [hfrom] at hto2
      exact absurd hto2 (List.cons_ne_self v rest)

/-! ## The concrete single-image schedule cs0 .. cs12 is reachable -/

theorem reach_cs2 : Reach 1 cs2 := by
  have h0 : Reach 1 cs0 := Reach.init
  have h1 : Reach 1 cs1 :=
    Reach.step h0 (Step.resizeThumb cs0 1 (le_refl 1) (le_refl 1) rfl)
  exact Reach.step h1 (Step.resizeMed cs1 1 (le_refl 1) (le_refl 1) rfl)

theorem reach_cs5 : Reach 1 cs5 := by
  have h3 : Reach 1 cs3 :=
    Reach.step reach_cs2 (Step.tokenSkip cs2 (le_refl 1) rfl)
  have h4 : Reach 1 cs4 :=
    Reach.step h3 (Step.forkLink cs3 1 (le_refl 1) (le_refl 1) rfl)
  exact Reach.step h4 (Step.waitResize cs4 1 (le_refl 1) (le_refl 1) rfl)

theorem reach_cs10 : Reach 1 cs10 := by
  have h6 : Reach 1 cs6 :=
    Reach.step reach_cs5 (Step.gateSkip cs5 (le_refl 1) rfl)
  have h7 : Reach 1 cs7 :=
    Reach.step h6 (Step.beginDisplay cs6 1 (le_refl 1) (le_refl 1) rfl)
  have h8 : Reach 1 cs8 :=
    Reach.step h7 (Step.interact cs7 1 (le_refl 1) (le_refl 1) rfl)
  have h9 : Reach 1 cs9 :=
    Reach.step h8 (Step.writeCaption cs8 1 (le_refl 1) (le_refl 1) rfl)
  exact Reach.step h9 (Step.tokenHandoff cs9 1 (le_refl 1) (le_refl 1) rfl)

theorem reach_cs11 : Reach 1 cs11 :=
  Reach.step reach_cs10 (Step.gateNotify cs10 1 (le_refl 1) (le_refl 1) rfl)

theorem reach_cs12 : Reach 1 cs12 :=
  Reach.step reach_cs11 (Step.linkWrite cs11 1 (le_refl 1) (le_refl 1) rfl)

/-! ## Per-claim closed theorems and witnesses -/

/-- Claim C1: the claimed block ordering is violated by the code.  In the
reachable single-image schedule where the forked `img_html` child runs
after the parent's caption write, the completed run's report consists of
the link block alone: the caption block was written first and then erased
by the truncating link write, so the report does not contain one link block
followed by one caption block. -/
theorem album_c1_report_order_violated :
    Reach 1 cs12 ∧ (cs12.w 1).pc = 11 ∧ cs12.task 1 = TaskSt.written ∧
    cs12.report = [Block.link 1] ∧ cs12.report ≠ [Block.link 1, Block.cap 1] :=
  ⟨reach_cs12, rfl, rfl, rfl, by decide⟩

/-- Claim C2 counterexample: a reachable state in which worker 1 has
already emitted the hand-off value 2 on the token pipe while its link
block is still unwritten (the forked `img_html` child is pending), so a
worker does not "perform its report writes" before emitting index+1 as the
claim states. -/
theorem album_c2_handoff_before_link_write :
    Reach 1 cs10 ∧ cs10.htmlQ = [2] ∧ cs10.task 1 = TaskSt.pending ∧
    Block.link 1 ∉ cs10.report ∧ Block.cap 1 ∈ cs10.report :=
  ⟨reach_cs10, rfl, rfl, by decide, by decide⟩

/-- Claim C2 witness: the amended token-ring properties instantiated at the
concrete reachable state cs2 of a one-image batch. -/
theorem album_c2_token_ring_witness : Reach 1 cs2 ∧ C2Prop 1 cs2 :=
  ⟨reach_cs2, album_c2_token_ring 1 cs2 reach_cs2⟩

/-- Claim C3 counterexample: a reachable state in which worker 1 has sent
its gate signal (pc = 11) while its link-block write is still pending, so
the gate signal is not sent "only upon completing its report writes" as
the claim states — only the caption write is complete at that point. -/
theorem album_c3_gate_sent_link_pending :
    Reach 1 cs11 ∧ 11 ≤ (cs11.w 1).pc ∧ cs11.task 1 = TaskSt.pending ∧
    Block.link 1 ∉ cs11.report ∧ Block.cap 1 ∈ cs11.report :=
  ⟨reach_cs11, by decide, rfl, by decide, by decide⟩

/-- Claim C3 witness: the amended gating properties instantiated at the
concrete reachable state cs5 of a one-image batch. -/
theorem album_c3_display_gating_witness : Reach 1 cs5 ∧ C3Prop 1 cs5 :=
  ⟨reach_cs5, album_c3_display_gating 1 cs5 reach_cs5⟩

theorem sreach_ss2 : SReach 10 ss2 := by
  have h0 : SReach 10 schedInit := SReach.init
  have h1 : SReach 10 ss1 :=
    SReach.step h0 (SStep.spawn schedInit (by decide) (by decide))
  exact SReach.step h1 (SStep.spawn ss1 (by decide) (by decide))

/-- Claim C4 witness: the cap and spawn-order properties instantiated at a
concrete reachable scheduler state of a 10-image batch with two workers
forked. -/
theorem album_c4_concurrency_cap_witness : SReach 10 ss2 ∧ C4Prop ss2 :=
  ⟨sreach_ss2, album_c4_concurrency_cap 10 ss2 sreach_ss2⟩

/-- Claim C5 witness: the rotation mapping evaluated at the concrete
responses "q" (unrecognized, hence no rotation) and "1" (clockwise, hence
both artifacts rotated by "90"). -/
theorem album_c5_rotation_mapping_witness :
    (("q" : String) ≠ "1" ∧ ("q" : String) ≠ "2" ∧ rot_dir_of_response "q" = 0)
    ∧ (rot_dir_of_response "1" ≠ 0 ∧
       rotations_performed (rot_dir_of_response "1") "thumb_a.jpg" "med_a.jpg" =
         [("thumb_a.jpg", "90"), ("med_a.jpg", "90")]) := by
  refine ⟨⟨by decide, by decide, ?_⟩, by decide, ?_⟩
  · exact album_c5_rotation_mapping.2.2.1 "q" (by decide) (by decide)
  · have h := album_c5_rotation_mapping.2.2.2.2.2.2.1 "1" "thumb_a.jpg"
      "med_a.jpg" (by decide)
    rw [h]
    rfl

/-- Claim C6 witness: a batch containing one unreadable path is rejected
with status -1 and zero spawns. -/
theorem album_c6_reject_before_spawn_witness :
    (("bad.txt" : String) ∈ ["bad.txt"]) ∧
    invalid_img ((fun _ => (none : Option (List Nat))) "bad.txt") ≠ 0 ∧
    album_main (fun _ => none) true true ["bad.txt"] = (-1, 0) := by
  refine ⟨by decide, by decide, ?_⟩
  exact (album_c6_reject_before_spawn (fun _ => none) true true).2
    ["bad.txt"] "bad.txt" (by decide) (by decide)

/-- Claim C8 counterexample: in the reachable single-image schedule where
the forked link writer runs last, the completed run's report is not one
link block followed by one caption block. -/
theorem album_c8_round_trip_counterexample :
    Reach 1 cs12 ∧ (cs12.w 1).pc = 11 ∧ cs12.task 1 = TaskSt.written ∧
    cs12.report ≠ [Block.link 1, Block.cap 1] :=
  ⟨reach_cs12, rfl, rfl, by decide⟩

/-- Claim C8 witness: the append mode evaluated at the concrete order 2. -/
theorem album_c8_truncate_then_append_witness :
    (2 : Nat) ≠ 1 ∧
    img_html "t.jpg" "m.jpg" 2 "prev" = "prev" ++ link_entry "t.jpg" "m.jpg" :=
  ⟨by decide,
   album_c8_truncate_then_append.2.1 "t.jpg" "m.jpg" 2 "prev" (by decide)⟩

/-- Claim C9 counterexample: the failure of the gate receive (album.c line
503) does not terminate the worker — it only warns and continues — so not
every send/receive failure on a coordination channel terminates the worker
as the claim states. -/
theorem album_c9_gate_recv_does_not_abort :
    coord_fail_behavior CoordOp.gateRecv = FailBehavior.warnContinue ∧
    FailBehavior.warnContinue ≠ FailBehavior.exitWorker (-1) :=
  ⟨rfl, by decide⟩

/-- Claim C9 witness: the failure policy evaluated at the token-ring read
and at a failed first pipe creation. -/
theorem album_c9_failure_policy_witness :
    CoordOp.tokenRecv ≠ CoordOp.gateRecv ∧
    coord_fail_behavior CoordOp.tokenRecv = FailBehavior.exitWorker (-1) ∧
    ((false = false ∨ (true : Bool) = false) ∧
      process_result false true 7 = (-1, 0)) :=
  ⟨by decide, album_c9_failure_policy.1 CoordOp.tokenRecv (by decide),
   Or.inl rfl, album_c9_failure_policy.2.2.2 7 false true (Or.inl rfl)⟩

/-- Claim C10 witness: the first resize request of a concrete script is
among its first two actions and is not a waiting action. -/
theorem album_c10_unconditional_resizes_witness :
    PAction.resizeReq "x.png" (thumb_name "x.png") "10%" ∈
      (process_img_script 2 "x.png").take 2 ∧
    isWaitAction (PAction.resizeReq "x.png" (thumb_name "x.png") "10%") = false := by
  constructor
  · exact List.mem_cons_self _ _
  · exact album_c10_unconditional_resizes.2.1 2 "x.png" _
      (List.mem_cons_self _ _)
